import Mathlib

/-!
Verification of the anki-tex core: the markup parser (command scanner and
note builder), the note equivalence engine, and the sync orchestrator.
Strings are modelled as lists of characters; Rust `HashMap`s as association
lists whose key uniqueness the code maintains by explicit `contains_key`
checks; `HashSet` equality as membership-based set equality.
-/

namespace AnkiTex

/-- Strings of the embedded program, modelled as lists of characters. -/
abbrev Str := List Char

/-- Rust `str::strip_prefix`: the remainder after the given leading part,
or `none` when the string does not start with it. -/
def stripPre? (p s : Str) : Option Str :=
  if p.isPrefixOf s then some (s.drop p.length) else none

/-- Whether `p` is a suffix of `s` (boolean, via the reversed lists). -/
def isSuffixOfB (p s : Str) : Bool :=
  p.reverse.isPrefixOf s.reverse

/-- Rust `str::strip_suffix`: the remainder before the given trailing part,
or `none` when the string does not end with it. -/
def stripSuf? (p s : Str) : Option Str :=
  if isSuffixOfB p s then some (s.take (s.length - p.length)) else none

/-- Rust `str::trim`: drop whitespace on both ends. -/
def trimList (s : Str) : Str :=
  ((s.dropWhile Char.isWhitespace).reverse.dropWhile Char.isWhitespace).reverse

/-- `Note` of `lib.rs` / `main.rs`: the central entity.  The `fields`
`HashMap` is modelled as an association list in insertion order. -/
structure Note where
  id : Option Nat
  deck : Str
  model : Str
  fields : List (Str × Str)
  tags : List Str
  question : Option Str
deriving DecidableEq

/-- Whitespace removal of `MatchUnescape::from`:
`s.replace(|x: char| x.is_whitespace(), "")`. -/
def removeWs (s : Str) : Str :=
  s.filter (fun c => !c.isWhitespace)

/-- `s.replace("&gt;", ">")`: left-to-right, non-overlapping. -/
def replaceGt : Str → Str
  | '&' :: 'g' :: 't' :: ';' :: rest => '>' :: replaceGt rest
  | c :: rest => c :: replaceGt rest
  | [] => []

/-- `s.replace("&lt;", "<")`: left-to-right, non-overlapping. -/
def replaceLt : Str → Str
  | '&' :: 'l' :: 't' :: ';' :: rest => '<' :: replaceLt rest
  | c :: rest => c :: replaceLt rest
  | [] => []

/-- `MatchUnescape::from(&str)`: remove all whitespace, then unescape
`&gt;` and then `&lt;`. -/
def matchUnescape (s : Str) : Str :=
  replaceLt (replaceGt (removeWs s))

/-- The canonicalized field pairs entering the equivalence comparison:
fields with non-empty values, key and value both canonicalized
(`impl PartialEq for Note`, construction of `a_fields` / `b_fields`). -/
def canonPairs (fields : List (Str × Str)) : List (Str × Str) :=
  (fields.filter (fun p => !p.2.isEmpty)).map
    (fun p => (matchUnescape p.1, matchUnescape p.2))

/-- Equality of the two `HashSet`s of canonical pairs: membership-based
set equality. -/
def setEqB (a b : List (Str × Str)) : Bool :=
  a.all (fun x => b.contains x) && b.all (fun x => a.contains x)

/-- `impl PartialEq for Note` (`lib.rs`): deck, model and the exact tag
sequence match, and the canonical field-pair sets are equal.  The `id`
mismatch branch of the source only logs and does not affect the verdict. -/
def noteEq (a b : Note) : Bool :=
  (a.deck == b.deck && a.model == b.model && a.tags == b.tags)
    && setEqB (canonPairs a.fields) (canonPairs b.fields)

/-- A Command Token of the scanner (`Cmd` plus its captured arguments). -/
inductive Token where
  | setDeck (name : Str)
  | setModel (name : Str)
  | addTag (t : Str)
  | setField (name value : Str)
  | endNote
deriving DecidableEq

/-- The capture of `[^\}]*` followed by the closing `\x7d`: the characters
up to the first closing brace, or `none` when no closing brace follows. -/
def takeUpToBrace : Str → Option Str
  | [] => none
  | c :: rest =>
    if c = '}' then some [] else (takeUpToBrace rest).map (fun l => c :: l)

/-- Match a command of shape `cmd` + `[^\x7d]*` + `\x7d` at the start of
`s`; on success, the captured argument and the matched length. -/
def matchArg (cmd : Str) (s : Str) : Option (Str × Nat) :=
  match stripPre? cmd s with
  | none => none
  | some rest =>
    match takeUpToBrace rest with
    | none => none
    | some arg => some (arg, cmd.length + arg.length + 1)

def deckCmd : Str := "\\deck".toList ++ ['{']
def modelCmd : Str := "\\model".toList ++ ['{']
def tagCmd : Str := "\\tag".toList ++ ['{']
def nextCmd : Str := "\\next".toList
def fieldsCmd : Str := "\\fields".toList ++ ['{']
def beginFieldCmd : Str := "\\begin".toList ++ ['{'] ++ "field".toList ++ ['}', '{']
def endFieldMarker : Str := "\\end".toList ++ ['{'] ++ "field".toList ++ ['}']

/-- The lazy capture `([\s\S]*?)` of the block field form: the characters
before the first occurrence of `\end{field}`, or `none` when the end
marker never occurs (an unterminated block field is not matched). -/
def takeUntilEndMarker : Str → Option Str
  | [] => none
  | c :: rest =>
    if endFieldMarker.isPrefixOf (c :: rest) then some []
    else (takeUntilEndMarker rest).map (fun l => c :: l)

/-- Match attempt for `\deck{...}` at the start of the text. -/
def tryDeck (s : Str) : Option (Token × Nat) :=
  (matchArg deckCmd s).map (fun p => (Token.setDeck p.1, p.2))

/-- Match attempt for `\model{...}` at the start of the text. -/
def tryModel (s : Str) : Option (Token × Nat) :=
  (matchArg modelCmd s).map (fun p => (Token.setModel p.1, p.2))

/-- Match attempt for `\tag{...}` at the start of the text. -/
def tryTag (s : Str) : Option (Token × Nat) :=
  (matchArg tagCmd s).map (fun p => (Token.addTag p.1, p.2))

/-- Match attempt for the bare `\next` marker at the start of the text. -/
def tryNext (s : Str) : Option (Token × Nat) :=
  if nextCmd.isPrefixOf s then some (Token.endNote, nextCmd.length) else none

/-- Match attempt for `\fields{NAME}{VALUE}` at the start of the text. -/
def tryFields (s : Str) : Option (Token × Nat) :=
  match matchArg fieldsCmd s with
  | none => none
  | some (name, len1) =>
    match s.drop len1 with
    | '{' :: rest2 =>
      match takeUpToBrace rest2 with
      | none => none
      | some val => some (Token.setField name val, len1 + 1 + val.length + 1)
    | _ => none

/-- Match attempt for the block form `\begin{field}{NAME} ... \end{field}`
at the start of the text. -/
def tryFieldEnv (s : Str) : Option (Token × Nat) :=
  match matchArg beginFieldCmd s with
  | none => none
  | some (name, len1) =>
    match takeUntilEndMarker (s.drop len1) with
    | none => none
    | some body =>
      some (Token.setField name body, len1 + body.length + endFieldMarker.length)

/-- `find_iter` for one pattern: leftmost-first, non-overlapping matches,
each reported with its starting position.  The fuel argument bounds the
number of scanning steps; every step consumes at least one character, so
fuel equal to the text length is enough. -/
def scanWith (tm : Str → Option (Token × Nat)) : Nat → Nat → Str → List (Nat × Token)
  | 0, _, _ => []
  | _ + 1, _, [] => []
  | fuel + 1, pos, c :: rest =>
    match tm (c :: rest) with
    | some (t, len) => (pos, t) :: scanWith tm fuel (pos + len) ((c :: rest).drop len)
    | none => scanWith tm fuel (pos + 1) rest

/-- Insert into a position-sorted list, after existing entries with a
position not larger (a stable insertion). -/
def insertByPos (x : Nat × Token) : List (Nat × Token) → List (Nat × Token)
  | [] => [x]
  | y :: ys => if y.1 ≤ x.1 then y :: insertByPos x ys else x :: y :: ys

/-- `sort_by_cached_key(|(start, _, _)| *start)`: sort by starting
position (the starts of distinct matches are distinct here, the six
patterns being mutually exclusive at any one position). -/
def sortByPos : List (Nat × Token) → List (Nat × Token)
  | [] => []
  | x :: xs => insertByPos x (sortByPos xs)

/-- `get_all_matches`: the per-pattern match lists (`NEXT` first, then
`DECK`, `MODEL`, `TAG`, `FIELD`, `FIELD_ENV`, as the source pushes them),
merged and sorted by starting position. -/
def get_all_matches (text : Str) : List (Nat × Token) :=
  sortByPos
    (scanWith tryNext text.length 0 text
      ++ scanWith tryDeck text.length 0 text
      ++ scanWith tryModel text.length 0 text
      ++ scanWith tryTag text.length 0 text
      ++ scanWith tryFields text.length 0 text
      ++ scanWith tryFieldEnv text.length 0 text)

/-- The parse failures of `get_content` (`parse_file.rs`). -/
inductive ParseError where
  | badHeader
  | badFooter
  | duplicateTag (t : Str)
  | duplicateField (name : Str)
  | missingDeck
  | missingModel
  | emptyFields
deriving DecidableEq

/-- The Note Builder accumulator: the four `current_*` locals of
`get_content`. -/
structure Acc where
  currentDeck : Option Str
  currentModel : Option Str
  currentTags : List Str
  currentFields : List (Str × Str)
deriving DecidableEq

/-- The accumulator before the token loop: all empty / unset. -/
def initAcc : Acc := ⟨none, none, [], []⟩

/-- One iteration of the token loop of `get_content`: the new accumulator
and the completed note the iteration pushes, if any. -/
def stepToken (acc : Acc) (t : Token) : Except ParseError (Acc × Option Note) :=
  match t with
  | .setDeck n => .ok ({ acc with currentDeck := some n }, none)
  | .setModel n => .ok ({ acc with currentModel := some n }, none)
  | .addTag tg =>
    if acc.currentTags.contains tg then .error (.duplicateTag tg)
    else .ok ({ acc with currentTags := acc.currentTags ++ [tg] }, none)
  | .setField name value =>
    if (acc.currentFields.map Prod.fst).contains name then
      .error (.duplicateField name)
    else .ok ({ acc with currentFields := acc.currentFields ++ [(name, value)] }, none)
  | .endNote =>
    match acc.currentDeck with
    | none => .error .missingDeck
    | some deck =>
      match acc.currentModel with
      | none => .error .missingModel
      | some model =>
        if acc.currentFields.isEmpty then .error .emptyFields
        else
          .ok ({ acc with currentTags := [], currentFields := [] },
            some { id := none, deck := deck, model := model,
                   fields := acc.currentFields, tags := acc.currentTags,
                   question := none })

/-- The token loop of `get_content`, run to the end of the token stream.
An unfinished accumulator at the end is dismissed with a warning in the
source; the completed notes are returned either way. -/
def runTokens (acc : Acc) (notes : List Note) : List Token → Except ParseError (List Note)
  | [] => .ok notes
  | t :: ts =>
    match stepToken acc t with
    | .error e => .error e
    | .ok (acc2, none) => runTokens acc2 notes ts
    | .ok (acc2, some n) => runTokens acc2 (notes ++ [n]) ts

/-- The `HEADER` constant of `parse_file.rs`. -/
def HEADER : Str :=
  "\\documentclass{article}\n\\usepackage{ankitex}\n\\usepackage{custom}\n\n\\begin{document}\n".toList

/-- The `FOOTER` constant (`parse_file.rs` and `main.rs`). -/
def FOOTER : Str := "\\end".toList ++ ['{'] ++ "document".toList ++ ['}']

/-- `get_content` of `main.rs` (header a parameter, footer the constant):
trim, strip the required header and footer, scan the interior and run the
token loop.  `parse_file.rs` has the same function with the fixed header. -/
def get_content_with (header : Str) (content : Str) : Except ParseError (List Note) :=
  match stripPre? header (trimList content) with
  | none => .error .badHeader
  | some rest =>
    match stripSuf? FOOTER rest with
    | none => .error .badFooter
    | some body => runTokens initAcc [] ((get_all_matches body).map Prod.snd)

/-- `get_content` of `parse_file.rs`: the fixed required header. -/
def get_content (content : Str) : Except ParseError (List Note) :=
  get_content_with HEADER content

deriving instance DecidableEq for Except

/-- `Model` of `main.rs`: a model's allowed field names. -/
structure SModel where
  fieldNames : List Str
deriving DecidableEq

/-- `State` of `main.rs`: the Sync Orchestrator's state. -/
structure SyncState where
  deckNames : List Str
  models : List (Str × SModel)
  addedNotes : List Note
  lastHash : Nat
deriving DecidableEq

/-- `state.models.get(&note.model)`: lookup in the model map. -/
def lookupModel (models : List (Str × SModel)) (name : Str) : Option SModel :=
  match models.find? (fun p => p.1 == name) with
  | some p => some p.2
  | none => none

/-- `fmt_content`: wrap a field value in the literal `[latex]` ... `[/latex]`
marker pair. -/
def fmt_content (v : Str) : Str :=
  "[latex]".toList ++ v ++ "[/latex]".toList

/-- The field-wrapping loop of `update_change`:
`for field in note.fields.values_mut() { *field = fmt_content(field) }`. -/
def wrapNote (n : Note) : Note :=
  { n with fields := n.fields.map (fun p => (p.1, fmt_content p.2)) }

def genTag : Str := "generated".toList

/-- The optional tag augmentation of `update_change`:
`if add_generated { note.tags.push("generated") }`. -/
def augment (ag : Bool) (n : Note) : Note :=
  if ag then { n with tags := n.tags ++ [genTag] } else n

/-- The argument record of an `add_note` call (`anki_tex::Note`). -/
structure ApiNote where
  deckName : Str
  modelName : Str
  fields : List (Str × Str)
  tags : List Str
deriving DecidableEq

/-- `add_note(&anki_tex::Note { ... })`. -/
def mkApi (n : Note) : ApiNote :=
  ⟨n.deck, n.model, n.fields, n.tags⟩

/-- The failures a pass can abort with: a parse failure or a failed
remote-store interaction. -/
inductive UpdateErr where
  | parse (e : ParseError)
  | remote
deriving DecidableEq

/-- The Rust `Result<(), Report>` a pass returns. -/
inductive Outcome where
  | ok
  | failed (e : UpdateErr)
deriving DecidableEq

/-- Everything observable about one pass: the orchestrator state after it
(the source mutates `state` through `&mut`, so the mutations survive an
abort), the `add_note` calls issued in order, the `added_notes` summary
counter, and the returned `Result`. -/
structure PassResult where
  state : SyncState
  calls : List ApiNote
  added : Nat
  outcome : Outcome
deriving DecidableEq

/-- `note.id = id; state.added_notes.push(note)`: append the transmitted
note, carrying the identifier the store returned, to the Known-Note Set. -/
def pushS (s : SyncState) (n : Note) (id : Option Nat) : SyncState :=
  { s with addedNotes := s.addedNotes ++ [{ n with id := id }] }

/-- The per-note loop of `update_change`.  The responses of the remote
store are modelled by `an`, mapping each transmitted record to either a
transport failure (`Except.error`) or `create_note`'s reply (`none` =
rejected as duplicate by the store).  A note failing validation makes the
whole loop return early — with `Ok(())` in the source, which only logs the
error. -/
def processNotes (ag : Bool) (an : ApiNote → Except Unit (Option Nat)) :
    SyncState → List Note → PassResult
  | s, [] => ⟨s, [], 0, .ok⟩
  | s, note :: rest =>
    if !(s.deckNames.contains note.deck) then ⟨s, [], 0, .ok⟩
    else
      match lookupModel s.models note.model with
      | none => ⟨s, [], 0, .ok⟩
      | some model =>
        if !(((wrapNote note).fields.map Prod.fst).all
            (fun k => model.fieldNames.contains k)) then
          ⟨s, [], 0, .ok⟩
        else
          if s.addedNotes.any (fun m => noteEq m (augment ag (wrapNote note))) then
            processNotes ag an s rest
          else
            match an (mkApi (augment ag (wrapNote note))) with
            | .error _ => ⟨s, [mkApi (augment ag (wrapNote note))], 0, .failed .remote⟩
            | .ok id =>
              ⟨(processNotes ag an (pushS s (augment ag (wrapNote note)) id) rest).state,
               mkApi (augment ag (wrapNote note)) ::
                 (processNotes ag an (pushS s (augment ag (wrapNote note)) id) rest).calls,
               (if id.isSome then 1 else 0) +
                 (processNotes ag an (pushS s (augment ag (wrapNote note)) id) rest).added,
               (processNotes ag an (pushS s (augment ag (wrapNote note)) id) rest).outcome⟩

/-- `update_change` for a plain file (the directory branch recurses into
children and is outside the claims): compare the content fingerprint and
short-circuit when unchanged, otherwise record the new fingerprint, reload
the deck/model metadata (`state.reload()`, response modelled by `reload`),
parse, and run the per-note loop.  `newHash` stands for
`fasthash::metro::hash64(&content)`; the header is the one
`get_header_and_footer` resolves. -/
def update_change (s : SyncState) (content : Str) (newHash : Nat)
    (reload : Except Unit (List Str × List (Str × SModel)))
    (header : Str) (ag : Bool)
    (an : ApiNote → Except Unit (Option Nat)) : PassResult :=
  if newHash = s.lastHash then ⟨s, [], 0, .ok⟩
  else
    let s1 := { s with lastHash := newHash }
    match reload with
    | .error _ => ⟨s1, [], 0, .failed .remote⟩
    | .ok (decks, models) =>
      let s2 := { s1 with deckNames := decks, models := models }
      match get_content_with header content with
      | .error e => ⟨s2, [], 0, .failed (.parse e)⟩
      | .ok notes => processNotes ag an s2 notes

/-- The validation a note must pass in `update_change`: its deck among the
valid deck names, its model in the model map, every field name in the
model's schema (wrapping the values does not change the names). -/
def validNote (s : SyncState) (n : Note) : Bool :=
  s.deckNames.contains n.deck &&
    match lookupModel s.models n.model with
    | none => false
    | some model => (n.fields.map Prod.fst).all (fun k => model.fieldNames.contains k)

/-! Helper lemmas shared by the claim theorems. -/

theorem isSuffixOfB_iff (p s : Str) : isSuffixOfB p s = true ↔ p <:+ s :=
  (List.isPrefixOf_iff_prefix).trans List.reverse_prefix

theorem stripPre?_eq_none (p s : Str) (h : ¬ p <+: s) : stripPre? p s = none := by
  unfold stripPre?
  rw [if_neg]
  simpa [List.isPrefixOf_iff_prefix] using h

theorem stripPre?_eq_some (p s : Str) (h : p <+: s) :
    stripPre? p s = some (s.drop p.length) := by
  unfold stripPre?
  rw [if_pos]
  simpa [List.isPrefixOf_iff_prefix] using h

theorem stripSuf?_eq_none (p s : Str) (h : ¬ p <:+ s) : stripSuf? p s = none := by
  unfold stripSuf?
  rw [if_neg]
  simpa [isSuffixOfB_iff] using h

/-- Wrapping the field values leaves the field names unchanged. -/
theorem wrapNote_keys (n : Note) :
    (wrapNote n).fields.map Prod.fst = n.fields.map Prod.fst := by
  simp [wrapNote]

/-- Claim C6: a pass whose buffer content yields the fingerprint of the
previous pass short-circuits: no metadata refresh, no parsing, no
`create_note` calls, and the orchestrator state is unchanged (for every
possible remote-store behaviour `reload` / `an`). -/
theorem C6_unchanged_fingerprint_short_circuits (s : SyncState) (content : Str)
    (newHash : Nat) (reload : Except Unit (List Str × List (Str × SModel)))
    (header : Str) (ag : Bool) (an : ApiNote → Except Unit (Option Nat))
    (h : newHash = s.lastHash) :
    update_change s content newHash reload header ag an = ⟨s, [], 0, .ok⟩ := by
  simp [update_change, h]

def an0 : ApiNote → Except Unit (Option Nat) := fun _ => .ok none

def s6 : SyncState := ⟨[], [], [], 42⟩

/-- Witness for C6 at a concrete state and content. -/
theorem C6_unchanged_fingerprint_short_circuits_witness :
    (42 : Nat) = s6.lastHash ∧
      update_change s6 ['x'] 42 (.ok ([], [])) ['h'] false an0 = ⟨s6, [], 0, .ok⟩ :=
  ⟨by decide, C6_unchanged_fingerprint_short_circuits s6 ['x'] 42 (.ok ([], []))
    ['h'] false an0 (by decide)⟩

/-- Claim C8: an input whose trimmed content does not begin with the exact
required header, or does not end with the exact required footer, fails
parsing with a framing error and yields no notes. -/
theorem C8_framing_mismatch_fails (content : Str)
    (h : ¬ HEADER <+: trimList content ∨ ¬ FOOTER <:+ trimList content) :
    get_content content = .error .badHeader ∨ get_content content = .error .badFooter := by
  unfold get_content get_content_with
  by_cases hp : HEADER <+: trimList content
  · right
    obtain ⟨rest, hrest⟩ := hp
    have h1 : stripPre? HEADER (trimList content) = some rest := by
      rw [stripPre?_eq_some _ _ ⟨rest, hrest⟩, ← hrest, List.drop_left]
    have hf : ¬ FOOTER <:+ rest := by
      rcases h with h | h
      · exact absurd ⟨rest, hrest⟩ h
      · rintro ⟨u, hu⟩
        exact h ⟨HEADER ++ u, by rw [List.append_assoc, hu, hrest]⟩
    simp only [h1, stripSuf?_eq_none _ _ hf]
  · left
    simp only [stripPre?_eq_none _ _ hp]

/-- Witness for C8 at a concrete malformed input. -/
theorem C8_framing_mismatch_fails_witness :
    (¬ HEADER <+: trimList ['x'] ∨ ¬ FOOTER <:+ trimList ['x']) ∧
      (get_content ['x'] = .error .badHeader ∨ get_content ['x'] = .error .badFooter) :=
  ⟨Or.inl (by decide), C8_framing_mismatch_fails ['x'] (Or.inl (by decide))⟩

theorem setEqB_iff (a b : List (Str × Str)) :
    setEqB a b = true ↔ ∀ p, p ∈ a ↔ p ∈ b := by
  unfold setEqB
  rw [Bool.and_eq_true, List.all_eq_true, List.all_eq_true]
  constructor
  · rintro ⟨h1, h2⟩ p
    constructor
    · intro hp
      simpa [List.contains] using h1 p hp
    · intro hp
      simpa [List.contains] using h2 p hp
  · intro hmem
    constructor
    · intro p hp
      simpa [List.contains] using (hmem p).mp hp
    · intro p hp
      simpa [List.contains] using (hmem p).mpr hp

/-- Two notes differing only in whitespace inside a field value and in the
use of the entity escapes versus the literal characters (and in `id` /
`question`). -/
def exW1 : Note :=
  ⟨none, "D".toList, "M".toList, [("F".toList, "a &lt;b&gt; c".toList)], ["t".toList], none⟩

def exW2 : Note :=
  ⟨some 5, "D".toList, "M".toList, [("F".toList, "a<b>c".toList)], ["t".toList],
    some "q".toList⟩

/-- Two notes differing only in tag order. -/
def exT1 : Note :=
  ⟨none, "D".toList, "M".toList, [("F".toList, "v".toList)],
    ["x".toList, "y".toList], none⟩

def exT2 : Note :=
  ⟨none, "D".toList, "M".toList, [("F".toList, "v".toList)],
    ["y".toList, "x".toList], none⟩

/-- Claim C2: `equivalent(a, b)` holds iff deck, model and the exact tag
sequence match and the sets of canonicalized `(key, value)` pairs over the
non-empty-valued fields are equal; the verdict is independent of `id` and
`question`; whitespace/entity-escape variants are equivalent and tag-order
variants are not. -/
theorem C2_equivalence_contract :
    (∀ a b : Note, noteEq a b = true ↔
      (a.deck = b.deck ∧ a.model = b.model ∧ a.tags = b.tags ∧
        ∀ p : Str × Str, p ∈ canonPairs a.fields ↔ p ∈ canonPairs b.fields)) ∧
    (∀ a b : Note, ∀ i j : Option Nat, ∀ q r : Option Str,
      noteEq { a with id := i, question := q } { b with id := j, question := r } =
        noteEq a b) ∧
    noteEq exW1 exW2 = true ∧ noteEq exT1 exT2 = false := by
  refine ⟨?_, ?_, by decide, by decide⟩
  · intro a b
    unfold noteEq
    rw [Bool.and_eq_true, Bool.and_eq_true, Bool.and_eq_true,
      beq_iff_eq, beq_iff_eq, beq_iff_eq, setEqB_iff]
    tauto
  · intro a b i j q r
    rfl

/-- Claim C4: the builder fails with exactly the specified structural
error in exactly the specified situation: `DuplicateTag` iff the tag is
already among the current tags (else the tag is appended), `DuplicateField`
iff the name is already a current field name (else the field is inserted),
and at `EndNote` `MissingDeck` iff the deck is unset, else `MissingModel`
iff the model is unset, else `EmptyFields` iff the field map is empty, else
a completed note with `id = none` and `question = none` is emitted. -/
theorem C4_builder_error_conditions :
    (∀ acc tg, stepToken acc (.addTag tg) = .error (.duplicateTag tg) ↔
      tg ∈ acc.currentTags) ∧
    (∀ acc tg, tg ∉ acc.currentTags →
      stepToken acc (.addTag tg) =
        .ok ({ acc with currentTags := acc.currentTags ++ [tg] }, none)) ∧
    (∀ acc name value, stepToken acc (.setField name value) = .error (.duplicateField name) ↔
      name ∈ acc.currentFields.map Prod.fst) ∧
    (∀ acc name value, name ∉ acc.currentFields.map Prod.fst →
      stepToken acc (.setField name value) =
        .ok ({ acc with currentFields := acc.currentFields ++ [(name, value)] }, none)) ∧
    (∀ acc, stepToken acc .endNote = .error .missingDeck ↔ acc.currentDeck = none) ∧
    (∀ acc, stepToken acc .endNote = .error .missingModel ↔
      acc.currentDeck ≠ none ∧ acc.currentModel = none) ∧
    (∀ acc, stepToken acc .endNote = .error .emptyFields ↔
      acc.currentDeck ≠ none ∧ acc.currentModel ≠ none ∧ acc.currentFields = []) ∧
    (∀ acc d m, acc.currentDeck = some d → acc.currentModel = some m →
      acc.currentFields ≠ [] →
      stepToken acc .endNote =
        .ok ({ acc with currentTags := [], currentFields := [] },
          some ⟨none, d, m, acc.currentFields, acc.currentTags, none⟩)) := by
  refine ⟨?_, ?_, ?_, ?_, ?_, ?_, ?_, ?_⟩
  · intro acc tg
    by_cases h : tg ∈ acc.currentTags <;>
      simp [stepToken, List.contains, h]
  · intro acc tg h
    simp [stepToken, List.contains, h]
  · intro acc name value
    by_cases h : name ∈ acc.currentFields.map Prod.fst <;>
      simp [stepToken, List.contains, h]
  · intro acc name value h
    simp [stepToken, List.contains, h]
  · intro acc
    cases hd : acc.currentDeck <;> cases hm : acc.currentModel <;>
      by_cases hf : acc.currentFields.isEmpty <;>
      simp [stepToken, hd, hm, hf]
  · intro acc
    cases hd : acc.currentDeck <;> cases hm : acc.currentModel <;>
      by_cases hf : acc.currentFields.isEmpty <;>
      simp [stepToken, hd, hm, hf]
  · intro acc
    cases hd : acc.currentDeck <;> cases hm : acc.currentModel <;>
      by_cases hf : acc.currentFields.isEmpty <;>
      simp [stepToken, hd, hm, hf] <;>
      simpa [List.isEmpty_iff] using hf
  · intro acc d m hd hm hf
    simp [stepToken, hd, hm, List.isEmpty_iff, hf]

/-- A document whose second note block sets a field but no deck and no
model before its `\next`. -/
def docC1 : Str :=
  HEADER ++ "\\deck{D}\\model{M}\\fields{F}{x}\\next\\fields{F}{y}\\next".toList ++ FOOTER

/-- Counterexample to claim C1: the second note block of `docC1` sets a
field but contains no `\deck` and no `\model` before its `\next`, yet
parsing succeeds (no `MissingDeck`/`MissingModel`) and the second note
reuses the previous note's deck and model. -/
theorem C1_counterexample :
    get_content docC1 =
      .ok [⟨none, "D".toList, "M".toList, [("F".toList, "x".toList)], [], none⟩,
           ⟨none, "D".toList, "M".toList, [("F".toList, "y".toList)], [], none⟩] := by
  decide

/-- Claim C1 (amended): consuming an `EndNote` token resets only the tags
and the fields of the accumulator; the current deck and the current model
are retained (the source clones them instead of taking them), so they
carry over to the next note block. -/
theorem C1_endnote_retains_deck_and_model (acc acc2 : Acc) (n : Note)
    (h : stepToken acc .endNote = .ok (acc2, some n)) :
    acc2.currentDeck = acc.currentDeck ∧ acc2.currentModel = acc.currentModel ∧
      acc2.currentTags = [] ∧ acc2.currentFields = [] := by
  unfold stepToken at h
  cases hd : acc.currentDeck <;> rw [hd] at h
  · cases h
  · cases hm : acc.currentModel <;> rw [hm] at h
    · cases h
    · by_cases hf : acc.currentFields.isEmpty <;> simp [hf] at h
      obtain ⟨h1, -⟩ := h
      rw [← h1]
      simp [hd, hm]

def accC1 : Acc :=
  ⟨some "D".toList, some "M".toList, ["t".toList], [("F".toList, "x".toList)]⟩

def accC1out : Acc := ⟨some "D".toList, some "M".toList, [], []⟩

def noteC1out : Note :=
  ⟨none, "D".toList, "M".toList, [("F".toList, "x".toList)], ["t".toList], none⟩

/-- Witness for the amended C1 at a concrete accumulator. -/
theorem C1_endnote_retains_deck_and_model_witness :
    stepToken accC1 .endNote = .ok (accC1out, some noteC1out) ∧
      (accC1out.currentDeck = accC1.currentDeck ∧
        accC1out.currentModel = accC1.currentModel ∧
        accC1out.currentTags = [] ∧ accC1out.currentFields = []) :=
  ⟨by decide, C1_endnote_retains_deck_and_model accC1 accC1out noteC1out (by decide)⟩

/-- A document whose `\deck` command has an empty argument (the argument
pattern of the scanner admits the empty capture). -/
def doc9 : Str :=
  HEADER ++ "\\deck\x7b\x7d\\model{M}\\fields{F}{x}\\next".toList ++ FOOTER

/-- Counterexample to claim C9: `doc9` contains `\deck` with an empty
argument and parses successfully into a completed note whose deck is the
empty string. -/
theorem C9_counterexample :
    get_content doc9 =
      .ok [⟨none, [], "M".toList, [("F".toList, "x".toList)], [], none⟩] := by
  decide

/-- A token-loop step that emits a note emits one with a non-empty field
map (the `EmptyFields` check guards the emission). -/
theorem step_emits_nonempty (acc acc2 : Acc) (t : Token) (n : Note)
    (h : stepToken acc t = .ok (acc2, some n)) : n.fields ≠ [] := by
  cases t with
  | setDeck name => simp [stepToken] at h
  | setModel name => simp [stepToken] at h
  | addTag tg =>
    rw [stepToken] at h
    split at h
    · cases h
    · simp at h
  | setField name value =>
    rw [stepToken] at h
    split at h
    · cases h
    · simp at h
  | endNote =>
    cases hd : acc.currentDeck <;> rw [stepToken, hd] at h
    · cases h
    · cases hm : acc.currentModel <;> rw [hm] at h
      · cases h
      · by_cases hf : acc.currentFields.isEmpty <;> simp [hf] at h
        obtain ⟨-, h2⟩ := h
        rw [← h2]
        simpa [List.isEmpty_iff] using hf

/-- The token loop only adds notes with non-empty field maps. -/
theorem runTokens_fields_nonempty (ts : List Token) :
    ∀ (acc : Acc) (notes out : List Note),
      (∀ n ∈ notes, n.fields ≠ []) → runTokens acc notes ts = .ok out →
      ∀ n ∈ out, n.fields ≠ [] := by
  induction ts with
  | nil =>
    intro acc notes out hnotes h
    rw [runTokens] at h
    cases h
    exact hnotes
  | cons t ts ih =>
    intro acc notes out hnotes h
    rw [runTokens] at h
    cases hs : stepToken acc t with
    | error e => rw [hs] at h; cases h
    | ok p =>
      obtain ⟨acc2, emitted⟩ := p
      rw [hs] at h
      cases emitted with
      | none => exact ih acc2 notes out hnotes h
      | some n =>
        refine ih acc2 (notes ++ [n]) out ?_ h
        intro m hm
        rcases List.mem_append.mp hm with hm | hm
        · exact hnotes m hm
        · rw [List.mem_singleton.mp hm]
          exact step_emits_nonempty acc acc2 t n hs

/-- Claim C9 (amended): every note produced by a successful parse has a
non-empty field map; its deck and model, however, may be empty strings
(see the counterexample: `\deck` with an empty argument is matched and
sets the empty string). -/
theorem C9_parsed_note_fields_nonempty (content : Str) (out : List Note)
    (h : get_content content = .ok out) : ∀ n ∈ out, n.fields ≠ [] := by
  unfold get_content get_content_with at h
  cases hp : stripPre? HEADER (trimList content) with
  | none => rw [hp] at h; cases h
  | some rest =>
    simp only [hp] at h
    cases hsf : stripSuf? FOOTER rest with
    | none => simp only [hsf] at h; cases h
    | some body =>
      simp only [hsf] at h
      exact runTokens_fields_nonempty _ initAcc [] out (by intro n hn; cases hn) h

/-- Witness for the amended C9 at a concrete document. -/
theorem C9_parsed_note_fields_nonempty_witness :
    get_content doc9 =
        .ok [⟨none, [], "M".toList, [("F".toList, "x".toList)], [], none⟩] ∧
      ∀ n ∈ [(⟨none, [], "M".toList, [("F".toList, "x".toList)], [], none⟩ : Note)],
        n.fields ≠ [] :=
  ⟨by decide, C9_parsed_note_fields_nonempty doc9 _ (by decide)⟩

def an3 : ApiNote → Except Unit (Option Nat) := fun _ => .ok (some 7)

/-- A sync state knowing deck `D` and model `M` with the single field `F`. -/
def s3 : SyncState := ⟨["D".toList], [("M".toList, ⟨["F".toList]⟩)], [], 0⟩

/-- A document whose first note is valid for `s3` and whose second note
references the unknown deck `U`. -/
def doc3 : Str :=
  ['H'] ++ "\\deck{D}\\model{M}\\fields{F}{x}\\next\\deck{U}\\fields{F}{y}\\next".toList
    ++ FOOTER

/-- The pass over `doc3` from state `s3` (header `H`, fingerprint fresh). -/
def r3 : PassResult :=
  update_change s3 doc3 1 (.ok (["D".toList], [("M".toList, ⟨["F".toList]⟩)])) ['H'] false an3

/-- Counterexample to claim C3: the parsed note sequence of `doc3`
contains a note with an invalid deck (`U`), yet the pass issues one
`create_note` call (for the valid note preceding it in parse order) and
extends the Known-Note Set, instead of aborting with zero calls and the
set unchanged. -/
theorem C3_counterexample :
    ¬ (r3.calls = [] ∧ r3.state.addedNotes = s3.addedNotes) ∧ r3.calls.length = 1 := by
  decide

/-- Claim C3 (amended): a note failing validation (unknown deck, unknown
model, or a field name outside the model's schema) aborts the pass at that
note: that note and every later note are not processed, no `create_note`
call is issued from that point on and the Known-Note Set is left as it
was — but notes preceding the invalid one in parse order have already been
processed and may have been created (see the counterexample). -/
theorem C3_invalid_note_aborts_rest (ag : Bool) (an : ApiNote → Except Unit (Option Nat))
    (s : SyncState) (note : Note) (rest : List Note)
    (h : validNote s note = false) :
    processNotes ag an s (note :: rest) = ⟨s, [], 0, .ok⟩ := by
  rw [processNotes]
  unfold validNote at h
  by_cases hd : s.deckNames.contains note.deck
  · rw [hd, Bool.true_and] at h
    simp only [hd, Bool.not_true, Bool.false_eq_true, if_false]
    cases hm : lookupModel s.models note.model with
    | none => rfl
    | some model =>
      rw [hm] at h
      have h2 : (note.fields.map Prod.fst).all (fun k => model.fieldNames.contains k) = false := h
      simp only [hm]
      rw [wrapNote_keys, h2]
      rfl
  · have hd2 : s.deckNames.contains note.deck = false := by
      simpa using hd
    rw [hd2]
    rfl

/-- Witness for the amended C3: the invalid-deck note of `doc3`, processed
first, yields an immediate abort with no calls and no state change. -/
theorem C3_invalid_note_aborts_rest_witness :
    validNote s3 ⟨none, "U".toList, "M".toList, [("F".toList, "y".toList)], [], none⟩ = false ∧
      processNotes false an3 s3
          [⟨none, "U".toList, "M".toList, [("F".toList, "y".toList)], [], none⟩] =
        ⟨s3, [], 0, .ok⟩ :=
  ⟨by decide, C3_invalid_note_aborts_rest false an3 s3
    ⟨none, "U".toList, "M".toList, [("F".toList, "y".toList)], [], none⟩ [] (by decide)⟩

/-- Unfolding of the per-note loop for a note passing validation. -/
theorem processNotes_cons_valid (ag : Bool) (an : ApiNote → Except Unit (Option Nat))
    (s : SyncState) (note : Note) (rest : List Note)
    (hv : validNote s note = true) :
    processNotes ag an s (note :: rest) =
      if s.addedNotes.any (fun m => noteEq m (augment ag (wrapNote note))) then
        processNotes ag an s rest
      else
        match an (mkApi (augment ag (wrapNote note))) with
        | .error _ => ⟨s, [mkApi (augment ag (wrapNote note))], 0, .failed .remote⟩
        | .ok id =>
          ⟨(processNotes ag an (pushS s (augment ag (wrapNote note)) id) rest).state,
           mkApi (augment ag (wrapNote note)) ::
             (processNotes ag an (pushS s (augment ag (wrapNote note)) id) rest).calls,
           (if id.isSome then 1 else 0) +
             (processNotes ag an (pushS s (augment ag (wrapNote note)) id) rest).added,
           (processNotes ag an (pushS s (augment ag (wrapNote note)) id) rest).outcome⟩ := by
  unfold validNote at hv
  rw [Bool.and_eq_true] at hv
  obtain ⟨hd, hrest⟩ := hv
  rw [processNotes, hd]
  cases hm : lookupModel s.models note.model with
  | none => rw [hm] at hrest; cases hrest
  | some model =>
    rw [hm] at hrest
    have ha : ((wrapNote note).fields.map Prod.fst).all
        (fun k => model.fieldNames.contains k) = true := by
      rw [wrapNote_keys]
      exact hrest
    simp only [hm, ha, Bool.not_true, Bool.false_eq_true, if_false]

/-- Claim C5: a validated note is transmitted with every field value being
the parsed value wrapped in the literal marker pair and otherwise
unmodified; if it is equivalent to a member of the (current) Known-Note
Set it triggers zero `create_note` calls; otherwise it triggers exactly
one, the head of the pass's remaining call list. -/
theorem C5_one_call_per_new_note (ag : Bool) (an : ApiNote → Except Unit (Option Nat))
    (s : SyncState) (note : Note) (rest : List Note)
    (hv : validNote s note = true) :
    (mkApi (augment ag (wrapNote note))).fields =
        note.fields.map (fun p => (p.1, fmt_content p.2)) ∧
    (s.addedNotes.any (fun m => noteEq m (augment ag (wrapNote note))) = true →
      processNotes ag an s (note :: rest) = processNotes ag an s rest) ∧
    (s.addedNotes.any (fun m => noteEq m (augment ag (wrapNote note))) = false →
      (processNotes ag an s (note :: rest)).calls =
        mkApi (augment ag (wrapNote note)) ::
          (match an (mkApi (augment ag (wrapNote note))) with
           | .error _ => []
           | .ok id =>
             (processNotes ag an (pushS s (augment ag (wrapNote note)) id) rest).calls)) := by
  refine ⟨?_, ?_, ?_⟩
  · cases ag <;> rfl
  · intro hdup
    rw [processNotes_cons_valid ag an s note rest hv, hdup]
    rfl
  · intro hdup
    rw [processNotes_cons_valid ag an s note rest hv, hdup]
    cases han : an (mkApi (augment ag (wrapNote note))) <;> simp

def s5 : SyncState := ⟨["D".toList], [("M".toList, ⟨["F".toList]⟩)], [], 3⟩

def note5 : Note :=
  ⟨none, "D".toList, "M".toList, [("F".toList, "x".toList)], [], none⟩

def an5 : ApiNote → Except Unit (Option Nat) := fun _ => .ok (some 9)

/-- Witness for C5 at a concrete state and note. -/
theorem C5_one_call_per_new_note_witness :
    validNote s5 note5 = true ∧
      ((mkApi (augment true (wrapNote note5))).fields =
          note5.fields.map (fun p => (p.1, fmt_content p.2)) ∧
      (s5.addedNotes.any (fun m => noteEq m (augment true (wrapNote note5))) = true →
        processNotes true an5 s5 [note5] = processNotes true an5 s5 []) ∧
      (s5.addedNotes.any (fun m => noteEq m (augment true (wrapNote note5))) = false →
        (processNotes true an5 s5 [note5]).calls =
          mkApi (augment true (wrapNote note5)) ::
            (match an5 (mkApi (augment true (wrapNote note5))) with
             | .error _ => []
             | .ok id =>
               (processNotes true an5 (pushS s5 (augment true (wrapNote note5)) id) []).calls))) :=
  ⟨by decide, C5_one_call_per_new_note true an5 s5 note5 [] (by decide)⟩

/-- Claim C10: when the remote store itself rejects the transmitted note
as a duplicate (`create_note` returns `None`), the pass does not fail: the
note is appended to the Known-Note Set with `id = none`, the remaining
notes are processed, and the rejected note is not counted in the pass's
created-notes summary. -/
theorem C10_store_duplicate_continues (ag : Bool) (an : ApiNote → Except Unit (Option Nat))
    (s : SyncState) (note : Note) (rest : List Note)
    (hv : validNote s note = true)
    (hdup : s.addedNotes.any (fun m => noteEq m (augment ag (wrapNote note))) = false)
    (hr : an (mkApi (augment ag (wrapNote note))) = .ok none) :
    processNotes ag an s (note :: rest) =
      ⟨(processNotes ag an (pushS s (augment ag (wrapNote note)) none) rest).state,
       mkApi (augment ag (wrapNote note)) ::
         (processNotes ag an (pushS s (augment ag (wrapNote note)) none) rest).calls,
       (processNotes ag an (pushS s (augment ag (wrapNote note)) none) rest).added,
       (processNotes ag an (pushS s (augment ag (wrapNote note)) none) rest).outcome⟩ := by
  rw [processNotes_cons_valid ag an s note rest hv, hdup]
  simp only [Bool.false_eq_true, if_false, hr, Option.isSome_none, Nat.zero_add]

def s10 : SyncState := ⟨["D".toList], [("M".toList, ⟨["F".toList]⟩)], [], 3⟩

def note10 : Note :=
  ⟨none, "D".toList, "M".toList, [("F".toList, "y".toList)], [], none⟩

def an10 : ApiNote → Except Unit (Option Nat) := fun _ => .ok none

/-- Witness for C10 at a concrete state and note. -/
theorem C10_store_duplicate_continues_witness :
    (validNote s10 note10 = true ∧
      s10.addedNotes.any (fun m => noteEq m (augment false (wrapNote note10))) = false ∧
      an10 (mkApi (augment false (wrapNote note10))) = .ok none) ∧
      processNotes false an10 s10 [note10] =
        ⟨(processNotes false an10 (pushS s10 (augment false (wrapNote note10)) none) []).state,
         mkApi (augment false (wrapNote note10)) ::
           (processNotes false an10 (pushS s10 (augment false (wrapNote note10)) none) []).calls,
         (processNotes false an10 (pushS s10 (augment false (wrapNote note10)) none) []).added,
         (processNotes false an10 (pushS s10 (augment false (wrapNote note10)) none) []).outcome⟩ :=
  ⟨⟨by decide, by decide, by decide⟩,
    C10_store_duplicate_continues false an10 s10 note10 [] (by decide) (by decide) (by decide)⟩

/-- A pass whose fingerprint matches the stored one returns immediately. -/
theorem update_change_hash_eq (s : SyncState) (content : Str) (newHash : Nat)
    (reload : Except Unit (List Str × List (Str × SModel))) (header : Str) (ag : Bool)
    (an : ApiNote → Except Unit (Option Nat)) (h : newHash = s.lastHash) :
    update_change s content newHash reload header ag an = ⟨s, [], 0, .ok⟩ := by
  simp [update_change, h]

/-- The per-note loop never touches the stored fingerprint. -/
theorem processNotes_lastHash (ag : Bool) (an : ApiNote → Except Unit (Option Nat)) :
    ∀ (notes : List Note) (s : SyncState),
      (processNotes ag an s notes).state.lastHash = s.lastHash := by
  intro notes
  induction notes with
  | nil => intro s; rfl
  | cons note rest ih =>
    intro s
    rw [processNotes]
    split
    · rfl
    · split
      · rfl
      · split
        · rfl
        · split
          · exact ih s
          · split
            · rfl
            · exact ih _

def s7 : SyncState := ⟨[], [], [], 0⟩

def an7 : ApiNote → Except Unit (Option Nat) := fun _ => .ok none

/-- The pass over the unparsable buffer `x` from state `s7`. -/
def r7 : PassResult := update_change s7 ['x'] 1 (.ok ([], [])) ['h'] false an7

/-- Counterexample to claim C7: the pass `r7` aborts with a parse error,
yet the orchestrator state is NOT left as it was before the pass (the
fingerprint was already updated), and a subsequent pass over the identical
buffer content IS short-circuited instead of retrying the cycle. -/
theorem C7_counterexample :
    r7.outcome = .failed (.parse .badHeader) ∧ r7.state ≠ s7 ∧
      update_change r7.state ['x'] 1 (.ok ([], [])) ['h'] false an7 =
        ⟨r7.state, [], 0, .ok⟩ := by
  decide

/-- Claim C7 (amended): when a pass aborts with an error, the content
fingerprint has already been recorded, so the resulting state carries the
aborted pass's fingerprint and a subsequent pass over identical buffer
content short-circuits (for any remote behaviour) instead of retrying the
parse-validate-create cycle. -/
theorem C7_abort_keeps_new_fingerprint (s : SyncState) (content : Str) (newHash : Nat)
    (reload : Except Unit (List Str × List (Str × SModel))) (header : Str) (ag : Bool)
    (an : ApiNote → Except Unit (Option Nat)) (e : UpdateErr)
    (h : (update_change s content newHash reload header ag an).outcome = .failed e) :
    (update_change s content newHash reload header ag an).state.lastHash = newHash ∧
      ∀ (reload2 : Except Unit (List Str × List (Str × SModel)))
        (an2 : ApiNote → Except Unit (Option Nat)),
        update_change (update_change s content newHash reload header ag an).state
            content newHash reload2 header ag an2 =
          ⟨(update_change s content newHash reload header ag an).state, [], 0, .ok⟩ := by
  have hh : (update_change s content newHash reload header ag an).state.lastHash = newHash := by
    unfold update_change at h ⊢
    by_cases heq : newHash = s.lastHash
    · rw [if_pos heq] at h
      cases h
    · rw [if_neg heq] at h ⊢
      cases reload with
      | error u => rfl
      | ok p =>
        obtain ⟨decks, models⟩ := p
        cases hc : get_content_with header content with
        | error pe => simp only [hc]
        | ok notes =>
          simp only [hc]
          exact processNotes_lastHash ag an notes _
  refine ⟨hh, ?_⟩
  intro reload2 an2
  exact update_change_hash_eq _ content newHash reload2 header ag an2 hh.symm

/-- Witness for the amended C7 at the concrete aborting pass `r7`. -/
theorem C7_abort_keeps_new_fingerprint_witness :
    (update_change s7 ['x'] 1 (.ok ([], [])) ['h'] false an7).outcome =
        .failed (.parse .badHeader) ∧
      ((update_change s7 ['x'] 1 (.ok ([], [])) ['h'] false an7).state.lastHash = 1 ∧
        ∀ (reload2 : Except Unit (List Str × List (Str × SModel)))
          (an2 : ApiNote → Except Unit (Option Nat)),
          update_change (update_change s7 ['x'] 1 (.ok ([], [])) ['h'] false an7).state
              ['x'] 1 reload2 ['h'] false an2 =
            ⟨(update_change s7 ['x'] 1 (.ok ([], [])) ['h'] false an7).state, [], 0, .ok⟩) :=
  ⟨by decide, C7_abort_keeps_new_fingerprint s7 ['x'] 1 (.ok ([], [])) ['h'] false an7
    (.parse .badHeader) (by decide)⟩

end AnkiTex

